import Mathlib

/-! Verification of stock-api, a products CRUD service (`src/main.go`).

A shallow embedding of the single Go source file: the `Product` entity, the
five `Repository` methods and the five HTTP handlers registered in `main`.

The Go program leans on four collaborators that are not part of the repository;
each is embedded by the behaviour the program relies on, and each such
definition says so in its comment:

* `encoding/json`, `strconv.ParseFloat` and gin's `binding:"required"`
  (`ShouldBindJSON`),
* `fmt.Sscan` into an `*int` (`Sscan`),
* the PostgreSQL `products` table behind `pgxpool` (`Store`, the `sql*` functions),
* `encoding/json` rendering of the response value (`Body`).

State is passed explicitly: every repository method takes the `Store` and the
environment's choices for that statement (`Env`: a fault the driver may report,
how far a failing `Scan` got, and the statement's `CURRENT_TIMESTAMP`) and returns
the new `Store`.
-/

namespace StockApi

/-! ## Data model (`src/main.go`, lines 13-21) -/

/-- Instants of Go's `time.Time`, counted in clock ticks; `0` stands for the zero
value `time.Time{}`. -/
abbrev Time := Nat

/-- Smallest value of Go's `int` on a 64-bit platform. -/
def minInt : Int := -(2 ^ 63)

/-- Largest value of Go's `int` on a 64-bit platform. -/
def maxInt : Int := 2 ^ 63 - 1

/-- The `Product` struct. A `float64` price is embedded by its exact rational
value (every finite `float64` is a rational; JSON cannot carry NaN or infinities;
negative zero is identified with zero, to which it compares equal), `int` fields by
integers that the decoders keep within `minInt..maxInt`. -/
structure Product where
  ID : Int
  Name : String
  Description : String
  Price : Rat
  Quantity : Int
  CreatedAt : Time
  UpdatedAt : Time
deriving DecidableEq, Repr

/-- The zero value of `Product`, what `var product Product` declares. -/
def Product.zero : Product :=
  { ID := 0, Name := "", Description := "", Price := 0, Quantity := 0,
    CreatedAt := 0, UpdatedAt := 0 }

/-! ## Request bodies and `ShouldBindJSON` -/

/-- What a JSON object holds for one key of the `Product` struct, seen from the
decoder of `encoding/json`: the key is missing, it is `null` (which leaves the Go
field untouched), it holds a value of a JSON type the decoder cannot store in the
Go field (also a number written with a fraction or an exponent for an `int`, and a
string that is no RFC 3339 time), or it holds a value of the right JSON type,
carried as `a`: the text of a string, the instant of a time, the value of a plain
integer literal, the exact value of a number literal. Whether a number fits the Go
field is decided by `decodeInt` and `decodeFloat`. -/
inductive Field (α : Type) where
  | absent
  | null
  | malformed
  | value (a : α)
deriving DecidableEq, Repr

/-- The keys of a JSON object that the decoder maps onto `Product`; other keys
are ignored. Integer literals are carried unbounded, and `price` carries the exact
rational value of its number literal (`1e-400` is `1 / 10 ^ 400`). -/
structure JsonObject where
  id : Field Int
  name : Field String
  description : Field String
  price : Field Rat
  quantity : Field Int
  created_at : Field Time
  updated_at : Field Time
deriving DecidableEq, Repr

/-- A request body, by the first JSON value in it: gin's `decodeJSON` calls
`json.NewDecoder(body).Decode(obj)` once, which reads one value and does not look
at what follows it. `invalid`: the body does not start with a complete JSON value
(no body, empty, truncated or ill-formed text). `null`: the value is `null`, which
the decoder accepts and which leaves the struct untouched. `nonObject`: the value
is an array, a string, a number or a boolean, which cannot be stored in a struct.
`object o`: the value is the object `o`, followed by anything. -/
inductive RequestBody where
  | invalid
  | null
  | nonObject
  | object (o : JsonObject)
deriving DecidableEq, Repr

/-- Why `ShouldBindJSON` failed: the body does not start with a JSON value, the
value or one of its keys cannot be stored in the Go type, or the validator found
`required` fields at their zero value (listed by Go field name in struct order). -/
inductive BindError where
  | badJSON
  | typeMismatch
  | required (fields : List String)
deriving DecidableEq, Repr

/-- Decoding one key into a Go field whose current value is `dflt`. -/
def decodeField {α : Type} (dflt : α) : Field α → Option α
  | .absent => some dflt
  | .null => some dflt
  | .malformed => none
  | .value a => some a

/-- Decoding one key into a Go `int`: a literal outside the 64-bit range is a
decoding error. -/
def decodeInt (dflt : Int) : Field Int → Option Int
  | .value n => if minInt ≤ n ∧ n ≤ maxInt then some n else none
  | f => decodeField dflt f

/-- The number of binary digits of `n`, by halving at most `fuel` times. -/
def bitLenAux : Nat → Nat → Nat
  | 0, _ => 0
  | fuel + 1, n => if n = 0 then 0 else bitLenAux fuel (n / 2) + 1

/-- The number of binary digits of `n` (0 for 0); `n` halvings always suffice. -/
def bitLen (n : Nat) : Nat := bitLenAux n n

/-- The binary exponent of a positive fraction: the integer `e` with
`2 ^ e ≤ num / den < 2 ^ (e + 1)`. -/
def floorLog2 (num den : Nat) : Int :=
  if num * 2 ^ bitLen den ≥ den * 2 ^ bitLen num then (bitLen num : Int) - bitLen den
  else (bitLen num : Int) - bitLen den - 1

/-- The `strconv.ParseFloat(s, 64)` on a number literal of exact value `q`: the
nearest `float64`, ties to the even significand. The unit in the last place is
`2 ^ g`, with 53 significant bits above the smallest normal exponent `-1022` and
the fixed unit `2 ^ -1074` below it, so that a literal under half that unit
becomes 0; a result of `2 ^ 1024` or more is a range error (`none`). -/
def ParseFloat (q : Rat) : Option Rat :=
  if q = 0 then some 0
  else
    let g : Int := max (floorLog2 q.num.natAbs q.den) (-1022) - 52
    let n := q.num.natAbs * 2 ^ (-g).toNat
    let d := q.den * 2 ^ g.toNat
    let m := if 2 * (n % d) > d ∨ (2 * (n % d) = d ∧ n / d % 2 = 1) then n / d + 1 else n / d
    if (bitLen m : Int) + g > 1024 then none
    else some ((if q < 0 then -1 else 1) * ((m : Rat) * (2 : Rat) ^ g))

/-- Decoding one key into a Go `float64`: the literal is converted by `ParseFloat`,
and a range error is a decoding error. -/
def decodeFloat (dflt : Rat) : Field Rat → Option Rat
  | .value q => ParseFloat q
  | f => decodeField dflt f

/-- The decoding of a JSON object into a zero `Product`; `none` when any key fails
to decode. -/
def decodeObject (o : JsonObject) : Option Product :=
  match decodeInt 0 o.id, decodeField "" o.name, decodeField "" o.description,
      decodeFloat 0 o.price, decodeInt 0 o.quantity,
      decodeField (0 : Time) o.created_at, decodeField (0 : Time) o.updated_at with
  | some i, some n, some d, some p, some q, some c, some u =>
    some { ID := i, Name := n, Description := d, Price := p, Quantity := q,
           CreatedAt := c, UpdatedAt := u }
  | _, _, _, _, _, _, _ => none

/-- The fields tagged `binding:"required"` (lines 15, 17, 18) that the validator
rejects: `required` fails on a field holding the zero value of its type. -/
def requiredFailures (p : Product) : List String :=
  (if p.Name = "" then ["Name"] else []) ++
  (if p.Price = 0 then ["Price"] else []) ++
  (if p.Quantity = 0 then ["Quantity"] else [])

/-- The struct validation that follows a successful decode. -/
def validate (p : Product) : Except BindError Product :=
  if requiredFailures p = [] then .ok p else .error (.required (requiredFailures p))

/-- The `c.ShouldBindJSON(&product)` of gin on a zero `product`: decode the first
JSON value of the body, then validate the struct tags. -/
def ShouldBindJSON : RequestBody → Except BindError Product
  | .invalid => .error .badJSON
  | .null => validate Product.zero
  | .nonObject => .error .typeMismatch
  | .object o =>
    match decodeObject o with
    | none => .error .typeMismatch
    | some p => validate p

/-! ## The store behind `pgxpool` -/

/-- Errors a repository method can return: `pgx.ErrNoRows`, a violated primary
key, or any other fault the driver or the database reports (lost connection,
failed scan, cancelled context) with its message. -/
inductive StoreError where
  | ErrNoRows
  | uniqueViolation
  | fault (msg : String)
deriving DecidableEq, Repr

/-- Modelled from the spec: the `products` table, whose schema is created outside
the repository. Columns in the order `id, name, description, price, quantity,
created_at, updated_at` (the order `SELECT *` is scanned in), `id` a primary key
fed by the sequence `nextId`, both timestamps defaulting to the statement's
`CURRENT_TIMESTAMP`, and every column storing the Go value exactly. `rows` is
the table in physical order. -/
structure Store where
  rows : List Product
  nextId : Int
deriving DecidableEq, Repr

/-- What the environment decides for one statement sent to the database: whether
the driver reports a fault, the statement's `CURRENT_TIMESTAMP`, and, for a fault
that hits the `Scan` of `GetProduct`, how many of the row's columns `Scan` had
stored before it failed (0 when the statement itself failed). -/
structure Env where
  fault : Option String
  now : Time
  scanned : Nat
deriving DecidableEq, Repr

/-- Whether the table has a row with this primary key. -/
def Store.hasId (st : Store) (id : Int) : Bool :=
  st.rows.any (fun r => r.ID == id)

/-- The primary-key invariant of the table: no two rows share an `id`. -/
def Store.WF (st : Store) : Prop :=
  (st.rows.map Product.ID).Nodup

/-- The statement `INSERT INTO products (name, description, price, quantity)
VALUES ($1, $2, $3, $4) RETURNING id, created_at, updated_at`: draws the next
sequence value (the draw is kept even when the insert fails) and returns the
inserted row, or fails on a duplicate key. -/
def sqlInsert (st : Store) (now : Time) (name description : String) (price : Rat)
    (quantity : Int) : Store × Except StoreError Product :=
  if st.hasId st.nextId then
    ({ st with nextId := st.nextId + 1 }, .error .uniqueViolation)
  else
    let row : Product :=
      { ID := st.nextId, Name := name, Description := description, Price := price,
        Quantity := quantity, CreatedAt := now, UpdatedAt := now }
    ({ rows := st.rows ++ [row], nextId := st.nextId + 1 }, .ok row)

/-- The statement `SELECT * FROM products WHERE id = $1`: the first matching row. -/
def sqlSelectById (st : Store) (id : Int) : Option Product :=
  st.rows.find? (fun r => r.ID == id)

/-- The statement `UPDATE products SET name = $1, description = $2, price = $3,
quantity = $4, updated_at = CURRENT_TIMESTAMP WHERE id = $5 RETURNING updated_at`:
the new table and the `updated_at` of each row it touched. -/
def sqlUpdate (st : Store) (now : Time) (name description : String) (price : Rat)
    (quantity : Int) (id : Int) : Store × List Time :=
  ({ st with rows := st.rows.map (fun r =>
      if r.ID = id then
        { r with Name := name, Description := description, Price := price,
                 Quantity := quantity, UpdatedAt := now }
      else r) },
   (st.rows.filter (fun r => r.ID == id)).map (fun _ => now))

/-- The statement `DELETE FROM products WHERE id = $1`. -/
def sqlDelete (st : Store) (id : Int) : Store :=
  { st with rows := st.rows.filter (fun r => r.ID != id) }

/-- The statement `SELECT * FROM products ORDER BY id`. -/
def sqlSelectAll (st : Store) : List Product :=
  st.rows.insertionSort (fun a b => a.ID ≤ b.ID)

/-! ## Repository (`src/main.go`, lines 23-108) -/

/-- `Repository.CreateProduct` (lines 31-43): `QueryRow(...).Scan` writes `id`,
`created_at`, `updated_at` into `*product` and returns the error, if any. Result:
the store, the product behind the pointer, and the returned `error`. -/
def CreateProduct (st : Store) (env : Env) (product : Product) :
    Store × Product × Option StoreError :=
  match env.fault with
  | some msg => (st, product, some (.fault msg))
  | none =>
    match sqlInsert st env.now product.Name product.Description product.Price
        product.Quantity with
    | (st', .error e) => (st', product, some e)
    | (st', .ok row) =>
      (st', { product with ID := row.ID, CreatedAt := row.CreatedAt,
                           UpdatedAt := row.UpdatedAt }, none)

/-- A zero `Product` in which `Scan` has stored the first `k` columns of `row`, in
the order of the destinations at lines 49-55. -/
def scanColumns (k : Nat) (row : Product) : Product :=
  { ID := if 0 < k then row.ID else 0,
    Name := if 1 < k then row.Name else "",
    Description := if 2 < k then row.Description else "",
    Price := if 3 < k then row.Price else 0,
    Quantity := if 4 < k then row.Quantity else 0,
    CreatedAt := if 5 < k then row.CreatedAt else 0,
    UpdatedAt := if 6 < k then row.UpdatedAt else 0 }

/-- `Repository.GetProduct` (lines 45-58): scans the row into a zero `Product` and
returns the struct together with the error. `Scan` returns `pgx.ErrNoRows` when
the query produced no row; on a fault the struct holds the columns `Scan` stored
before it failed. -/
def GetProduct (st : Store) (env : Env) (id : Int) : Product × Option StoreError :=
  match env.fault with
  | some msg =>
    match sqlSelectById st id with
    | some row => (scanColumns env.scanned row, some (.fault msg))
    | none => (Product.zero, some (.fault msg))
  | none =>
    match sqlSelectById st id with
    | some row => (row, none)
    | none => (Product.zero, some .ErrNoRows)

/-- `Repository.UpdateProduct` (lines 60-74): `Scan` writes only `updated_at` into
`*product`, and returns `pgx.ErrNoRows` when the `UPDATE` touched no row. -/
def UpdateProduct (st : Store) (env : Env) (id : Int) (product : Product) :
    Store × Product × Option StoreError :=
  match env.fault with
  | some msg => (st, product, some (.fault msg))
  | none =>
    match sqlUpdate st env.now product.Name product.Description product.Price
        product.Quantity id with
    | (st', t :: _) => (st', { product with UpdatedAt := t }, none)
    | (st', []) => (st', product, some .ErrNoRows)

/-- `Repository.DeleteProduct` (lines 76-80): `Exec` reports only faults; the number
of deleted rows is discarded. -/
def DeleteProduct (st : Store) (env : Env) (id : Int) : Store × Option StoreError :=
  match env.fault with
  | some msg => (st, some (.fault msg))
  | none => (sqlDelete st id, none)

/-- A Go slice as `encoding/json` tells them apart: the nil slice, or a slice with
a backing array. -/
inductive Slice (α : Type) where
  | nil
  | items (xs : List α)
deriving DecidableEq, Repr

/-- The elements of a slice; the nil slice has none. -/
def Slice.toList {α : Type} : Slice α → List α
  | .nil => []
  | .items xs => xs

/-- Go's `append(s, a)`. -/
def Slice.append {α : Type} : Slice α → α → Slice α
  | .nil, a => .items [a]
  | .items xs, a => .items (xs ++ [a])

/-- How the environment may disturb the row stream of `GetAllProducts`: `db.Query`
itself returns an error; `rows.Scan` fails on the row at index `k`; or the stream
breaks before the row at index `k`, which makes `rows.Next()` return false and
leaves the error in `rows.Err()`. -/
inductive RowsFault where
  | query (msg : String)
  | scan (k : Nat) (msg : String)
  | next (k : Nat) (msg : String)
deriving DecidableEq, Repr

/-- The loop `for rows.Next() { ... rows.Scan ... append }` of lines 90-107, from
the row at index `k` on, with `products` collected so far. After the loop the
function returns `products, nil`; `rows.Err()` is never consulted. -/
def scanRows (fault : Option RowsFault) :
    Nat → List Product → Slice Product → Slice Product × Option StoreError
  | _, [], products => (products, none)
  | k, row :: rest, products =>
    match fault with
    | some (.next j msg) =>
      if j = k then (products, none)
      else scanRows (some (.next j msg)) (k + 1) rest (products.append row)
    | some (.scan j msg) =>
      if j = k then (Slice.nil, some (.fault msg))
      else scanRows (some (.scan j msg)) (k + 1) rest (products.append row)
    | other => scanRows other (k + 1) rest (products.append row)

/-- `Repository.GetAllProducts` (lines 82-108); `var products []Product` starts as
the nil slice. -/
def GetAllProducts (st : Store) (fault : Option RowsFault) :
    Slice Product × Option StoreError :=
  match fault with
  | some (.query msg) => (Slice.nil, some (.fault msg))
  | other => scanRows other 0 (sqlSelectAll st) Slice.nil

/-! ## Path ids: `fmt.Sscan(id, &productID)` -/

/-- The `isSpace` of package `fmt`: the ranges of its `space` table. -/
def isSpace (c : Char) : Bool :=
  let r := c.toNat
  (0x0009 ≤ r && r ≤ 0x000d) || r == 0x0020 || r == 0x0085 || r == 0x00a0 ||
  r == 0x1680 || (0x2000 ≤ r && r ≤ 0x200a) || (0x2028 ≤ r && r ≤ 0x2029) ||
  r == 0x202f || r == 0x205f || r == 0x3000

/-- The `ss.SkipSpace` of `fmt` for `Sscan`, where newlines count as space. -/
def SkipSpace : List Char → List Char
  | [] => []
  | c :: cs => if isSpace c then SkipSpace cs else c :: cs

/-- The constant `binaryDigits` of `fmt`. -/
def binaryDigits : List Char := ['0', '1']

/-- The constant `octalDigits` of `fmt`. -/
def octalDigits : List Char := ['0', '1', '2', '3', '4', '5', '6', '7']

/-- The constant `decimalDigits` of `fmt`. -/
def decimalDigits : List Char := ['0', '1', '2', '3', '4', '5', '6', '7', '8', '9']

/-- The constant `hexadecimalDigits` of `fmt`. -/
def hexadecimalDigits : List Char :=
  ['0', '1', '2', '3', '4', '5', '6', '7', '8', '9',
   'a', 'A', 'b', 'B', 'c', 'C', 'd', 'D', 'e', 'E', 'f', 'F']

/-- The scanner state `ss` of `fmt`, reduced to what an integer scan uses: the
unread input and the token buffer `buf`. -/
structure ss where
  input : List Char
  buf : List Char
deriving DecidableEq, Repr

/-- The `ss.accept(ok)`: consumes the next rune into the buffer when it is one of
`ok`, and reports whether it did. -/
def ss.accept (s : ss) (ok : List Char) : Bool × ss :=
  match s.input with
  | c :: cs => if c ∈ ok then (true, { input := cs, buf := s.buf ++ [c] }) else (false, s)
  | [] => (false, s)

/-- The loop `for s.accept(digits) {}` of `ss.scanNumber`. -/
def acceptAll (ok : List Char) : List Char → List Char → ss
  | [], buf => { input := [], buf := buf }
  | c :: cs, buf =>
    if c ∈ ok then acceptAll ok cs (buf ++ [c]) else { input := c :: cs, buf := buf }

/-- The `ss.scanBasePrefix` of `fmt` (called for the verb `v`): after a leading
`0` it selects binary, octal or hexadecimal digits by the letter that follows
(octal when none does) and reports that a digit was found; otherwise decimal
digits. The underscore is a digit in each set. -/
def ss.scanBasePrefix (s : ss) : List Char × Bool × ss :=
  match s.input with
  | '0' :: cs =>
    let buf := s.buf ++ ['0']
    match cs with
    | c :: cs' =>
      if c = 'b' ∨ c = 'B' then
        (binaryDigits ++ ['_'], true, { input := cs', buf := buf ++ [c] })
      else if c = 'o' ∨ c = 'O' then
        (octalDigits ++ ['_'], true, { input := cs', buf := buf ++ [c] })
      else if c = 'x' ∨ c = 'X' then
        (hexadecimalDigits ++ ['_'], true, { input := cs', buf := buf ++ [c] })
      else (octalDigits ++ ['_'], true, { input := cs, buf := buf })
    | [] => (octalDigits ++ ['_'], true, { input := cs, buf := buf })
  | _ => (decimalDigits ++ ['_'], false, s)

/-- The `ss.scanNumber(digits, haveDigits)`: the token in the buffer once every
following digit is consumed; an error (`none`) when a first digit is needed and
the input is at its end or does not start with one. -/
def ss.scanNumber (s : ss) (digits : List Char) (haveDigits : Bool) : Option (List Char) :=
  if haveDigits then some (acceptAll digits s.input s.buf).buf
  else
    match s.input with
    | [] => none
    | c :: cs => if c ∈ digits then some (acceptAll digits cs (s.buf ++ [c])).buf else none

/-- The `lower` of `strconv`: `c | ('x' - 'X')`. -/
def lower (c : Char) : Nat := c.toNat ||| 0x20

/-- Largest `uint64`. -/
def maxUint64 : Nat := 2 ^ 64 - 1

/-- The digit loop of `strconv.ParseUint` in base `base`, with `n` accumulated so
far and `underscores` telling whether one was seen; `none` for a syntax or range
error. Underscores are skipped when the base was inferred (`base0`). -/
def parseDigits (base : Nat) (base0 : Bool) : List Char → Nat → Bool → Option (Nat × Bool)
  | [], n, underscores => some (n, underscores)
  | c :: cs, n, underscores =>
    if c = '_' ∧ base0 = true then parseDigits base base0 cs n true
    else
      let d : Option Nat :=
        if '0'.toNat ≤ c.toNat ∧ c.toNat ≤ '9'.toNat then some (c.toNat - '0'.toNat)
        else if 'a'.toNat ≤ lower c ∧ lower c ≤ 'z'.toNat then some (lower c - 'a'.toNat + 10)
        else none
      match d with
      | none => none
      | some d =>
        if d ≥ base then none
        else if n ≥ maxUint64 / base + 1 then none
        else if n * base + d > maxUint64 then none
        else parseDigits base base0 cs (n * base + d) underscores

/-- The loop of `strconv.underscoreOK` over the number proper; `saw` is the last
character class seen: `'^'` start, `'0'` digit or base prefix, `'_'` underscore,
`'!'` anything else. -/
def underscoreLoop (hex : Bool) : List Char → Char → Bool
  | [], saw => saw != '_'
  | c :: cs, saw =>
    if ('0'.toNat ≤ c.toNat ∧ c.toNat ≤ '9'.toNat) ∨
        (hex = true ∧ 'a'.toNat ≤ lower c ∧ lower c ≤ 'f'.toNat) then
      underscoreLoop hex cs '0'
    else if c = '_' then
      if saw != '0' then false else underscoreLoop hex cs '_'
    else if saw = '_' then false
    else underscoreLoop hex cs '!'

/-- The `strconv.underscoreOK`: underscores may only separate digits, or the base
prefix from the first digit. -/
def underscoreOK (s : List Char) : Bool :=
  let s := match s with
    | '-' :: t => t
    | '+' :: t => t
    | _ => s
  match s with
  | '0' :: c :: t =>
    if lower c = 'b'.toNat ∨ lower c = 'o'.toNat ∨ lower c = 'x'.toNat then
      underscoreLoop (lower c == 'x'.toNat) t '0'
    else underscoreLoop false s '^'
  | _ => underscoreLoop false s '^'

/-- The `strconv.ParseUint(s, 0, 64)`: the base is read off the literal's prefix;
`none` for a syntax or range error. -/
def ParseUint (s : List Char) : Option Nat :=
  match s with
  | [] => none
  | _ =>
    let (base, rest) : Nat × List Char :=
      match s with
      | '0' :: c :: d :: t =>
        if lower c = 'b'.toNat then (2, d :: t)
        else if lower c = 'o'.toNat then (8, d :: t)
        else if lower c = 'x'.toNat then (16, d :: t)
        else (8, c :: d :: t)
      | '0' :: t => (8, t)
      | _ => (10, s)
    match parseDigits base true rest 0 false with
    | none => none
    | some (n, underscores) =>
      if underscores ∧ underscoreOK s = false then none else some n

/-- The `strconv.ParseInt(s, 0, 64)`: sign, magnitude by `ParseUint`, range check
against `1 << 63`. -/
def ParseInt (s : List Char) : Option Int :=
  match s with
  | [] => none
  | c :: t =>
    let neg := c == '-'
    let s := if c = '+' ∨ c = '-' then t else s
    match ParseUint s with
    | none => none
    | some un =>
      if neg = false ∧ un ≥ 2 ^ 63 then none
      else if neg = true ∧ un > 2 ^ 63 then none
      else some (if neg then -(un : Int) else (un : Int))

/-- The `ss.scanInt('v', 64)`: skip space, fail at the end of input, take an
optional sign, the base prefix and the digits, and convert the token. -/
def scanInt (input : List Char) : Option Int :=
  match SkipSpace input with
  | [] => none
  | c :: cs =>
    let s : ss := ({ input := c :: cs, buf := [] } : ss).accept ['+', '-'] |>.2
    let (digits, haveDigits, s) := s.scanBasePrefix
    match s.scanNumber digits haveDigits with
    | none => none
    | some tok => ParseInt tok

/-- The call `fmt.Sscan(id, &productID)` of the handlers, as the handlers use it:
`some n` when `err == nil`, with `n` stored in `productID`; `none` otherwise.
`Sscan` scans one operand and does not look at what follows its token. -/
def Sscan (id : List Char) : Option Int :=
  scanInt id

/-! ## HTTP handlers (`src/main.go`, lines 124-202) -/

/-- The message of a `gin.H{"error": ...}` body, by where it comes from: a string
literal of the source, `err.Error()` of a binding error, or `err.Error()` of a
repository error. -/
inductive ErrorMsg where
  | text (s : String)
  | bind (e : BindError)
  | store (e : StoreError)
deriving DecidableEq, Repr

/-- The response body as `encoding/json` renders the value handed to `c.JSON`:
nothing written (`c.Status`), the object `{"error": msg}`, a `Product` object, a
JSON array of `Product` objects (a slice with a backing array), or the JSON value
`null` (the nil slice). -/
inductive Body where
  | empty
  | error (msg : ErrorMsg)
  | product (p : Product)
  | array (ps : List Product)
  | null
deriving DecidableEq, Repr

/-- The rendering of a `[]Product` by `encoding/json`: a nil slice encodes as `null`. -/
def renderSlice : Slice Product → Body
  | .nil => .null
  | .items ps => .array ps

/-- An HTTP response: status code and body. -/
structure Response where
  status : Nat
  body : Body
deriving DecidableEq, Repr

/-- A call of a `Repository` method, with its arguments. -/
inductive RepoCall where
  | create (product : Product)
  | get (id : Int)
  | update (id : Int) (product : Product)
  | delete (id : Int)
  | getAll
deriving DecidableEq, Repr

/-- What handling one request amounts to: the response, the store afterwards, and
the repository calls made, in order. -/
structure Outcome where
  response : Response
  store : Store
  calls : List RepoCall
deriving DecidableEq, Repr

/-- The handler of `POST /products` (lines 124-137). -/
def postProducts (st : Store) (env : Env) (body : RequestBody) : Outcome :=
  match ShouldBindJSON body with
  | .error e => { response := ⟨400, .error (.bind e)⟩, store := st, calls := [] }
  | .ok product =>
    match CreateProduct st env product with
    | (st', _, some err) =>
      { response := ⟨500, .error (.store err)⟩, store := st', calls := [.create product] }
    | (st', created, none) =>
      { response := ⟨201, .product created⟩, store := st', calls := [.create product] }

/-- The handler of `GET /products/:id` (lines 139-154): every error of `GetProduct`
takes the same branch. -/
def getProduct (st : Store) (env : Env) (id : List Char) : Outcome :=
  match Sscan id with
  | none => { response := ⟨400, .error (.text "ID inválido")⟩, store := st, calls := [] }
  | some productID =>
    match GetProduct st env productID with
    | (_, some _) =>
      { response := ⟨404, .error (.text "Produto não encontrado")⟩, store := st,
        calls := [.get productID] }
    | (product, none) =>
      { response := ⟨200, .product product⟩, store := st, calls := [.get productID] }

/-- The handler of `PUT /products/:id` (lines 156-176): the response is the bound
`product`, in which `UpdateProduct` has written `UpdatedAt` only. -/
def putProduct (st : Store) (env : Env) (id : List Char) (body : RequestBody) : Outcome :=
  match Sscan id with
  | none => { response := ⟨400, .error (.text "ID inválido")⟩, store := st, calls := [] }
  | some productID =>
    match ShouldBindJSON body with
    | .error e => { response := ⟨400, .error (.bind e)⟩, store := st, calls := [] }
    | .ok product =>
      match UpdateProduct st env productID product with
      | (st', _, some err) =>
        { response := ⟨500, .error (.store err)⟩, store := st',
          calls := [.update productID product] }
      | (st', updated, none) =>
        { response := ⟨200, .product updated⟩, store := st',
          calls := [.update productID product] }

/-- The handler of `DELETE /products/:id` (lines 178-192). -/
def deleteProduct (st : Store) (env : Env) (id : List Char) : Outcome :=
  match Sscan id with
  | none => { response := ⟨400, .error (.text "ID inválido")⟩, store := st, calls := [] }
  | some productID =>
    match DeleteProduct st env productID with
    | (st', some err) =>
      { response := ⟨500, .error (.store err)⟩, store := st', calls := [.delete productID] }
    | (st', none) =>
      { response := ⟨204, .empty⟩, store := st', calls := [.delete productID] }

/-- The handler of `GET /products` (lines 194-202). -/
def getProducts (st : Store) (fault : Option RowsFault) : Outcome :=
  match GetAllProducts st fault with
  | (_, some err) =>
    { response := ⟨500, .error (.store err)⟩, store := st, calls := [.getAll] }
  | (products, none) =>
    { response := ⟨200, renderSlice products⟩, store := st, calls := [.getAll] }

/-! ## Sample data -/

/-- A body with the three required keys only, as in the spec's scenario; `price`
is the value of the number literal. -/
def widgetBody (price : Rat) (quantity : Int) : JsonObject :=
  { id := .absent, name := .value "Widget", description := .absent, price := .value price,
    quantity := .value quantity, created_at := .absent, updated_at := .absent }

/-- A stored row. -/
def sampleRow (id : Int) (name : String) : Product :=
  { ID := id, Name := name, Description := "", Price := 5, Quantity := 10,
    CreatedAt := 100, UpdatedAt := 100 }

/-- A table holding rows 2 and 1, in that physical order. -/
def sampleStore : Store :=
  { rows := [sampleRow 2 "Gadget", sampleRow 1 "Widget"], nextId := 3 }

/-- An empty table. -/
def emptyStore : Store := { rows := [], nextId := 1 }

/-- A statement the database executes at time 200. -/
def healthy : Env := { fault := none, now := 200, scanned := 0 }

/-- A statement the driver fails with a connection error. -/
def broken : Env := { fault := some "connection refused", now := 200, scanned := 0 }

/-- A `SELECT` whose row arrives but whose `Scan` fails at the fourth column. -/
def scanFailure : Env := { fault := some "cannot scan price", now := 200, scanned := 3 }

/-! ## Decimal numerals -/

/-- The character of the decimal digit `d`, for `d < 10`. -/
def digitChar (d : Nat) : Char := Char.ofNat ('0'.toNat + d)

/-- The value of a decimal numeral given by its digits, most significant first,
continuing from the value `n` of the digits before them. -/
def decimalFrom (n : Nat) (ds : List Nat) : Nat := ds.foldl (fun n d => n * 10 + d) n

/-- The value of a decimal numeral given by its digits, most significant first. -/
def decimalValue (ds : List Nat) : Nat := decimalFrom 0 ds

/-- Whether a decimal token stops in front of this rest of the input: at its end,
or at a character that is neither a decimal digit nor an underscore. -/
def endsToken : List Char → Bool
  | [] => true
  | c :: _ => !(decide (c ∈ decimalDigits ++ ['_']))

/-! ## Binding and `POST /products` -/

/-- The literal `5` converts to the `float64` 5. -/
theorem ParseFloat_five : ParseFloat 5 = some 5 := by
  have hq : ¬ ((5 : Rat) = 0) := by norm_num
  have hn : (5 : Rat).num.natAbs = 5 := rfl
  have hd : (5 : Rat).den = 1 := rfl
  have hlog : floorLog2 5 1 = 2 := by decide
  have hbits : bitLen 5629499534213120 = 53 := by decide
  have h50 : Int.toNat 50 = 50 := rfl
  have hm50 : Int.toNat (-50) = 0 := rfl
  unfold ParseFloat
  simp only [hq, if_false, hn, hd, hlog]
  norm_num [h50, hm50, hbits]

/-- The literal `7` converts to the `float64` 7. -/
theorem ParseFloat_seven : ParseFloat 7 = some 7 := by
  have hq : ¬ ((7 : Rat) = 0) := by norm_num
  have hn : (7 : Rat).num.natAbs = 7 := rfl
  have hd : (7 : Rat).den = 1 := rfl
  have hlog : floorLog2 7 1 = 2 := by decide
  have hbits : bitLen 7881299347898368 = 53 := by decide
  have h50 : Int.toNat 50 = 50 := rfl
  have hm50 : Int.toNat (-50) = 0 := rfl
  unfold ParseFloat
  simp only [hq, if_false, hn, hd, hlog]
  norm_num [h50, hm50, hbits]

/-- The literal `0` converts to the `float64` 0. -/
theorem ParseFloat_zero : ParseFloat 0 = some 0 := by
  simp [ParseFloat]

set_option maxRecDepth 100000 in
set_option exponentiation.threshold 5000 in
/-- The binary exponent of `1e-400`. -/
theorem floorLog2_tiny : floorLog2 1 (10 ^ 400) = -1329 := by decide

set_option maxRecDepth 100000 in
set_option exponentiation.threshold 5000 in
/-- The binary exponent of `1e400`. -/
theorem floorLog2_huge : floorLog2 (10 ^ 400) 1 = 1328 := by decide

set_option maxRecDepth 100000 in
set_option exponentiation.threshold 5000 in
/-- Twice `2 ^ 1074` is still below `1e400`. -/
theorem tiny_below_half : 2 * 2 ^ 1074 < 10 ^ 400 := by decide

/-- The literal `1e-400` lies under half the smallest `float64` and converts to 0. -/
theorem ParseFloat_tiny : ParseFloat (1 / 10 ^ 400) = some 0 := by
  have hform : (1 / 10 ^ 400 : Rat) = ((10 ^ 400 : Nat) : Rat)⁻¹ := by
    rw [one_div, Nat.cast_pow, Nat.cast_ofNat]
  have hpos : 0 < 10 ^ 400 := by positivity
  have hq : ¬ ((((10 ^ 400 : Nat) : Rat)⁻¹) = 0) :=
    inv_ne_zero (Nat.cast_ne_zero.2 hpos.ne')
  have hn : ((((10 ^ 400 : Nat) : Rat)⁻¹)).num.natAbs = 1 := by
    rw [Rat.inv_natCast_num_of_pos hpos]; rfl
  have hd : ((((10 ^ 400 : Nat) : Rat)⁻¹)).den = 10 ^ 400 :=
    Rat.inv_natCast_den_of_pos hpos
  have hg : max (-1329 : Int) (-1022) - 52 = -1074 := by decide
  have h1 : Int.toNat (- (-1074)) = 1074 := rfl
  have h2 : Int.toNat (-1074) = 0 := rfl
  have hlt : 2 ^ 1074 < 10 ^ 400 := by
    have := tiny_below_half
    omega
  have hdiv : 1 * 2 ^ 1074 / (10 ^ 400 * 2 ^ 0) = 0 := by
    rw [one_mul, pow_zero, mul_one]
    exact Nat.div_eq_of_lt hlt
  have hmod : 1 * 2 ^ 1074 % (10 ^ 400 * 2 ^ 0) = 2 ^ 1074 := by
    rw [one_mul, pow_zero, mul_one]
    exact Nat.mod_eq_of_lt hlt
  have hhalf : ¬ (2 * 2 ^ 1074 > 10 ^ 400 * 2 ^ 0 ∨
      (2 * 2 ^ 1074 = 10 ^ 400 * 2 ^ 0 ∧ 0 % 2 = 1)) := by
    have := tiny_below_half
    rw [pow_zero, mul_one]
    omega
  have hbits : bitLen 0 = 0 := rfl
  rw [hform]
  unfold ParseFloat
  simp only [hq, if_false, hn, hd, floorLog2_tiny, hg, h1, h2, hdiv, hmod, hhalf, hbits]
  have hfits : ¬ (((0 : Nat) : Int) + -1074 > 1024) := by decide
  rw [if_neg hfits]
  simp only [Nat.cast_zero, zero_mul, mul_zero]

/-- The literal `1e400` exceeds every `float64`: a range error. -/
theorem ParseFloat_huge : ParseFloat (10 ^ 400) = none := by
  have hform : (10 ^ 400 : Rat) = ((10 ^ 400 : Nat) : Rat) := by
    rw [Nat.cast_pow, Nat.cast_ofNat]
  have hq : ¬ (((10 ^ 400 : Nat) : Rat) = 0) :=
    Nat.cast_ne_zero.2 (by positivity)
  have hn : (((10 ^ 400 : Nat) : Rat)).num.natAbs = 10 ^ 400 := by
    rw [Rat.num_natCast]; rfl
  have hd : (((10 ^ 400 : Nat) : Rat)).den = 1 := Rat.den_natCast _
  have hg : max (1328 : Int) (-1022) - 52 = 1276 := by decide
  rw [hform]
  unfold ParseFloat
  simp only [hq, if_false, hn, hd, floorLog2_huge, hg]
  have hpos : ∀ m : Nat, (bitLen m : Int) + 1276 > 1024 := by
    intro m
    have := Int.ofNat_nonneg (bitLen m)
    omega
  rw [if_pos (hpos _)]

/-- The decoded product carries what each key decodes to. -/
theorem decodeObject_eq_some {o : JsonObject} {p : Product} (h : decodeObject o = some p) :
    decodeInt 0 o.id = some p.ID ∧ decodeField "" o.name = some p.Name ∧
    decodeField "" o.description = some p.Description ∧
    decodeFloat 0 o.price = some p.Price ∧
    decodeInt 0 o.quantity = some p.Quantity ∧
    decodeField (0 : Time) o.created_at = some p.CreatedAt ∧
    decodeField (0 : Time) o.updated_at = some p.UpdatedAt := by
  unfold decodeObject at h
  split at h
  · rename_i h1 h2 h3 h4 h5 h6 h7
    cases h
    exact ⟨h1, h2, h3, h4, h5, h6, h7⟩
  · cases h

/-- The sample body decodes to the name `Widget`, the converted price and the
quantity. -/
theorem decodeObject_widgetBody (lit pr : Rat) (q : Int) (h : ParseFloat lit = some pr)
    (hr : minInt ≤ q ∧ q ≤ maxInt) :
    decodeObject (widgetBody lit q) = some ⟨0, "Widget", "", pr, q, 0, 0⟩ := by
  simp [decodeObject, widgetBody, decodeInt, decodeField, decodeFloat, h, hr]

/-- No required field is reported exactly when none holds its zero value. -/
theorem requiredFailures_eq_nil (p : Product) :
    requiredFailures p = [] ↔ p.Name ≠ "" ∧ p.Price ≠ 0 ∧ p.Quantity ≠ 0 := by
  unfold requiredFailures
  by_cases h1 : p.Name = "" <;> by_cases h2 : p.Price = 0 <;> by_cases h3 : p.Quantity = 0 <;>
    simp [h1, h2, h3]

/-- Validation fails exactly when a required field holds its zero value. -/
theorem validate_error_iff (p : Product) :
    (∃ e, validate p = .error e) ↔ (p.Name = "" ∨ p.Price = 0 ∨ p.Quantity = 0) := by
  by_cases hr : requiredFailures p = []
  · have := (requiredFailures_eq_nil p).1 hr
    simp [validate, hr, this]
  · have hz : p.Name = "" ∨ p.Price = 0 ∨ p.Quantity = 0 := by
      by_contra hcon
      push_neg at hcon
      exact hr ((requiredFailures_eq_nil p).2 hcon)
    simp [validate, hr, hz]

/-- The sample body binds when its price converts to a non-zero `float64` and its
quantity is a non-zero `int`. -/
theorem ShouldBindJSON_widgetBody (lit pr : Rat) (q : Int) (h : ParseFloat lit = some pr)
    (hp : pr ≠ 0) (hq : q ≠ 0) (hr : minInt ≤ q ∧ q ≤ maxInt) :
    ShouldBindJSON (.object (widgetBody lit q)) = .ok ⟨0, "Widget", "", pr, q, 0, 0⟩ := by
  have hreq : requiredFailures ⟨0, "Widget", "", pr, q, 0, 0⟩ = [] :=
    (requiredFailures_eq_nil _).2 ⟨by simp, hp, hq⟩
  simp [ShouldBindJSON, decodeObject_widgetBody lit pr q h hr, validate, hreq]

/-- When binding fails, `POST /products` answers 400 and never reaches the store. -/
theorem postProducts_of_bind_error (st : Store) (env : Env) {body : RequestBody}
    {e : BindError} (h : ShouldBindJSON body = .error e) :
    postProducts st env body =
      { response := ⟨400, .error (.bind e)⟩, store := st, calls := [] } := by
  simp [postProducts, h]

/-- The status of `POST /products` once binding succeeded is 500 or 201. -/
theorem postProducts_of_bind_ok (st : Store) (env : Env) {body : RequestBody}
    {p : Product} (h : ShouldBindJSON body = .ok p) :
    (postProducts st env body).calls = [.create p] ∧
    (postProducts st env body).store = (CreateProduct st env p).1 ∧
    ((CreateProduct st env p).2.2 = none →
      (postProducts st env body).response = ⟨201, .product (CreateProduct st env p).2.1⟩) ∧
    (∀ err, (CreateProduct st env p).2.2 = some err →
      (postProducts st env body).response = ⟨500, .error (.store err)⟩) := by
  rcases hc : CreateProduct st env p with ⟨st', created, _ | err⟩ <;>
    simp [postProducts, h, hc]

/-- `PUT /products/{id}` once the id is read and the body bound. -/
theorem putProduct_of_bind_ok (st : Store) (env : Env) {id : List Char} {n : Int}
    {body : RequestBody} {p : Product} (hs : Sscan id = some n)
    (hb : ShouldBindJSON body = .ok p) :
    putProduct st env id body =
      (match UpdateProduct st env n p with
       | (st', _, some err) =>
         { response := ⟨500, .error (.store err)⟩, store := st', calls := [.update n p] }
       | (st', updated, none) =>
         { response := ⟨200, .product updated⟩, store := st', calls := [.update n p] }) := by
  simp [putProduct, hs, hb]

/-- Binding fails exactly when the body does not start with a JSON value, starts
with `null` or with a value that is no object, or starts with an object of which a
key fails to decode or a required field decodes to its zero value. -/
theorem ShouldBindJSON_error_iff (body : RequestBody) :
    (∃ e, ShouldBindJSON body = .error e) ↔
      (body = .invalid ∨ body = .null ∨ body = .nonObject ∨ ∃ o, body = .object o ∧
        (decodeObject o = none ∨
          ∃ p, decodeObject o = some p ∧ (p.Name = "" ∨ p.Price = 0 ∨ p.Quantity = 0))) := by
  cases body with
  | invalid => simp [ShouldBindJSON]
  | null =>
    have hz : ∃ e, validate Product.zero = .error e :=
      (validate_error_iff _).2 (Or.inl rfl)
    simpa [ShouldBindJSON] using hz
  | nonObject => simp [ShouldBindJSON]
  | object o =>
    cases hd : decodeObject o with
    | none => simp [ShouldBindJSON, hd]
    | some p =>
      have hv := validate_error_iff p
      simp only [ShouldBindJSON, hd]
      rw [hv]
      constructor
      · intro hz
        exact Or.inr (Or.inr (Or.inr ⟨o, rfl, Or.inr ⟨p, hd, hz⟩⟩))
      · rintro (h | h | h | ⟨o2, ho, h | ⟨p2, hp2, hz⟩⟩)
        · cases h
        · cases h
        · cases h
        · cases ho
          rw [hd] at h
          cases h
        · cases ho
          rw [hd] at hp2
          cases hp2
          exact hz

/-- What a successful `CreateProduct` did: the statement was executed, the drawn id
was free, one row was appended, and the product behind the pointer received the
row's `id` and timestamps. -/
theorem CreateProduct_ok {st st' : Store} {env : Env} {input created : Product}
    (h : CreateProduct st env input = (st', created, none)) :
    env.fault = none ∧ st.hasId st.nextId = false ∧
    st' = { rows := st.rows ++ [⟨st.nextId, input.Name, input.Description, input.Price,
              input.Quantity, env.now, env.now⟩], nextId := st.nextId + 1 } ∧
    created = ⟨st.nextId, input.Name, input.Description, input.Price, input.Quantity,
      env.now, env.now⟩ := by
  unfold CreateProduct at h
  cases hf : env.fault with
  | some msg => simp [hf] at h
  | none =>
    cases hh : st.hasId st.nextId with
    | true => simp [hf, sqlInsert, hh] at h
    | false =>
      simp [hf, sqlInsert, hh] at h
      exact ⟨rfl, rfl, h.1.symm, h.2.symm⟩

/-- C1. A `POST /products` whose JSON object omits `name`, gives it as `null` or
gives it as the empty string is answered 400 with an `{"error": ...}` body; no
repository method is called and the store is left as it was. -/
theorem post_without_name_is_rejected (st : Store) (env : Env) (o : JsonObject)
    (h : o.name = .absent ∨ o.name = .null ∨ o.name = .value "") :
    (postProducts st env (.object o)).response.status = 400 ∧
    (∃ msg, (postProducts st env (.object o)).response.body = .error msg) ∧
    (postProducts st env (.object o)).calls = [] ∧
    (postProducts st env (.object o)).store = st := by
  have hb : ∃ e, ShouldBindJSON (.object o) = .error e := by
    rw [ShouldBindJSON_error_iff]
    refine Or.inr (Or.inr (Or.inr ⟨o, rfl, ?_⟩))
    cases hd : decodeObject o with
    | none => exact Or.inl rfl
    | some p =>
      refine Or.inr ⟨p, rfl, Or.inl ?_⟩
      have hn := (decodeObject_eq_some hd).2.1
      rcases h with h | h | h <;> rw [h] at hn <;> simp [decodeField] at hn <;> exact hn.symm
  obtain ⟨e, he⟩ := hb
  rw [postProducts_of_bind_error st env he]
  exact ⟨rfl, ⟨_, rfl⟩, rfl, rfl⟩

/-- C1, at the spec's scenario with `name` left out: the store holding two rows is
untouched. -/
theorem post_without_name_is_rejected_witness :
    (postProducts sampleStore healthy
      (.object { widgetBody 5 10 with name := .absent })).response.status = 400 ∧
    (postProducts sampleStore healthy
      (.object { widgetBody 5 10 with name := .absent })).store = sampleStore :=
  have h := post_without_name_is_rejected sampleStore healthy
    { widgetBody 5 10 with name := .absent } (Or.inl rfl)
  ⟨h.1, h.2.2.2⟩

/-- C2, counterexample. Bodies with a non-empty `name`, a numeric `price` and an
integer `quantity` all present are answered 400 without any repository call when
the quantity is zero, when the price is zero, when the price literal is `1e-400`
(which converts to the `float64` 0), and when it is `1e400` (which is out of the
range of `float64`). -/
theorem post_zero_quantity_or_price_is_rejected :
    (postProducts emptyStore healthy (.object (widgetBody 5 0))).response.status = 400 ∧
    (postProducts emptyStore healthy (.object (widgetBody 5 0))).calls = [] ∧
    (postProducts emptyStore healthy (.object (widgetBody 0 10))).response.status = 400 ∧
    (postProducts emptyStore healthy (.object (widgetBody 0 10))).calls = [] ∧
    (postProducts emptyStore healthy
      (.object (widgetBody (1 / 10 ^ 400) 10))).response.status = 400 ∧
    (postProducts emptyStore healthy (.object (widgetBody (1 / 10 ^ 400) 10))).calls = [] ∧
    (postProducts emptyStore healthy (.object (widgetBody (10 ^ 400) 10))).response.status =
      400 ∧
    (postProducts emptyStore healthy (.object (widgetBody (10 ^ 400) 10))).calls = [] := by
  have hq : ShouldBindJSON (.object (widgetBody 5 0)) = .error (.required ["Quantity"]) := by
    simp [ShouldBindJSON, decodeObject_widgetBody 5 5 0 ParseFloat_five (by decide),
      validate, requiredFailures]
  have hp : ShouldBindJSON (.object (widgetBody 0 10)) = .error (.required ["Price"]) := by
    simp [ShouldBindJSON, decodeObject_widgetBody 0 0 10 ParseFloat_zero (by decide),
      validate, requiredFailures]
  have ht : ShouldBindJSON (.object (widgetBody (1 / 10 ^ 400) 10)) =
      .error (.required ["Price"]) := by
    rw [ShouldBindJSON, decodeObject_widgetBody (1 / 10 ^ 400) 0 10 ParseFloat_tiny (by decide)]
    simp [validate, requiredFailures]
  have hh : ShouldBindJSON (.object (widgetBody (10 ^ 400) 10)) = .error .typeMismatch := by
    have hdec : decodeObject (widgetBody (10 ^ 400) 10) = none := by
      unfold decodeObject
      have hpr : decodeFloat 0 (widgetBody (10 ^ 400) 10).price = none := ParseFloat_huge
      rw [hpr]
      rfl
    rw [ShouldBindJSON, hdec]
  rw [postProducts_of_bind_error _ _ hq, postProducts_of_bind_error _ _ hp,
    postProducts_of_bind_error _ _ ht, postProducts_of_bind_error _ _ hh]
  exact ⟨rfl, rfl, rfl, rfl, rfl, rfl, rfl, rfl⟩

/-- C2, amended. `POST /products`, and `PUT /products/{id}` once the id is read,
answer 400 for the body exactly when it does not start with a JSON object, a key
of `Product` in that object fails to decode into its Go field, or `name`, `price`
or `quantity` is missing or decodes to the zero value of its type. For a body that
starts with an object whose keys all decode, with a non-empty `name`, a `price`
literal that `ParseFloat` converts to a non-zero `float64` and a non-zero plain
integer `quantity` within the range of `int`, binding yields the decoded product,
`CreateProduct` is called once with it, and when the store succeeds the answer is
201 with the product as the store completed it. -/
theorem post_validation (st : Store) (env : Env) (o : JsonObject)
    (i : Int) (n d : String) (lit pr : Rat) (q : Int) (c u : Time)
    (hid : decodeInt 0 o.id = some i) (hname : o.name = .value n) (hn : n ≠ "")
    (hdesc : decodeField "" o.description = some d)
    (hprice : o.price = .value lit) (hparse : ParseFloat lit = some pr) (hp : pr ≠ 0)
    (hqty : o.quantity = .value q) (hq : q ≠ 0) (hrange : minInt ≤ q ∧ q ≤ maxInt)
    (hc : decodeField (0 : Time) o.created_at = some c)
    (hu : decodeField (0 : Time) o.updated_at = some u) :
    ShouldBindJSON (.object o) = .ok ⟨i, n, d, pr, q, c, u⟩ ∧
    (postProducts st env (.object o)).calls = [.create ⟨i, n, d, pr, q, c, u⟩] ∧
    (∀ st' created, CreateProduct st env ⟨i, n, d, pr, q, c, u⟩ = (st', created, none) →
      (postProducts st env (.object o)).response = ⟨201, .product created⟩ ∧
      (postProducts st env (.object o)).store = st' ∧
      created = ⟨st.nextId, n, d, pr, q, env.now, env.now⟩) ∧
    (∀ body, (postProducts st env body).response.status = 400 ↔
      (body = .invalid ∨ body = .null ∨ body = .nonObject ∨ ∃ o, body = .object o ∧
        (decodeObject o = none ∨
          ∃ p, decodeObject o = some p ∧ (p.Name = "" ∨ p.Price = 0 ∨ p.Quantity = 0)))) ∧
    (∀ body id productID, Sscan id = some productID →
      ((putProduct st env id body).response.status = 400 ↔
        (body = .invalid ∨ body = .null ∨ body = .nonObject ∨ ∃ o, body = .object o ∧
          (decodeObject o = none ∨
            ∃ p, decodeObject o = some p ∧
              (p.Name = "" ∨ p.Price = 0 ∨ p.Quantity = 0))))) := by
  have hdec : decodeObject o = some ⟨i, n, d, pr, q, c, u⟩ := by
    unfold decodeObject
    rw [hid, hdesc, hc, hu, hname, hprice, hqty]
    simp [decodeField, decodeInt, decodeFloat, hparse, hrange]
  have hbind : ShouldBindJSON (.object o) = .ok ⟨i, n, d, pr, q, c, u⟩ := by
    have hr : requiredFailures ⟨i, n, d, pr, q, c, u⟩ = [] :=
      (requiredFailures_eq_nil _).2 ⟨hn, hp, hq⟩
    simp [ShouldBindJSON, hdec, validate, hr]
  have hpost := postProducts_of_bind_ok st env hbind
  refine ⟨hbind, hpost.1, ?_, ?_, ?_⟩
  · intro st' created hcreate
    have h3 := hpost.2.2.1
    have h2 := hpost.2.1
    rw [hcreate] at h3 h2
    refine ⟨h3 rfl, h2, ?_⟩
    exact (CreateProduct_ok hcreate).2.2.2
  · intro body
    rw [← ShouldBindJSON_error_iff]
    constructor
    · intro h400
      cases hb : ShouldBindJSON body with
      | error e => exact ⟨e, rfl⟩
      | ok p =>
        exfalso
        have hk := postProducts_of_bind_ok st env hb
        rcases hcp : (CreateProduct st env p).2.2 with _ | err
        · rw [hk.2.2.1 hcp] at h400; simp at h400
        · rw [hk.2.2.2 err hcp] at h400; simp at h400
    · rintro ⟨e, he⟩
      rw [postProducts_of_bind_error st env he]
  · intro body id productID hid
    rw [← ShouldBindJSON_error_iff]
    constructor
    · intro h400
      cases hb : ShouldBindJSON body with
      | error e => exact ⟨e, rfl⟩
      | ok p =>
        exfalso
        rcases hup : UpdateProduct st env productID p with ⟨st', updated, _ | err⟩ <;>
          simp [putProduct, hid, hb, hup] at h400
    · rintro ⟨e, he⟩
      simp [putProduct, hid, he]

/-- C2, at the spec's scenario `{"name":"Widget","price":5,"quantity":10}` on an
empty table. -/
theorem post_validation_witness :
    ShouldBindJSON (.object (widgetBody 5 10)) = .ok ⟨0, "Widget", "", 5, 10, 0, 0⟩ ∧
    (postProducts emptyStore healthy (.object (widgetBody 5 10))).response =
      ⟨201, .product ⟨1, "Widget", "", 5, 10, 200, 200⟩⟩ :=
  have h := post_validation emptyStore healthy (widgetBody 5 10) 0 "Widget" "" 5 5 10 0 0
    rfl rfl (by decide) rfl rfl ParseFloat_five (by decide) rfl (by decide) (by decide)
    rfl rfl
  ⟨h.1, (h.2.2.1 ⟨[⟨1, "Widget", "", 5, 10, 200, 200⟩], 2⟩
    ⟨1, "Widget", "", 5, 10, 200, 200⟩ rfl).1⟩

/-! ## Path ids -/

/-- The code point of a digit character. -/
theorem digitChar_toNat {d : Nat} (h : d < 10) : (digitChar d).toNat = 48 + d := by
  interval_cases d <;> rfl

/-- Digit characters are digits for the scanner. -/
theorem digitChar_mem {d : Nat} (h : d < 10) : digitChar d ∈ decimalDigits ++ ['_'] := by
  interval_cases d <;> decide

/-- The digit loop of `scanNumber` consumes a run of decimal digits whole and stops
where the token ends. -/
theorem acceptAll_digits (ds : List Nat) (rest buf : List Char) (hds : ∀ d ∈ ds, d < 10)
    (hrest : endsToken rest = true) :
    acceptAll (decimalDigits ++ ['_']) (ds.map digitChar ++ rest) buf =
      { input := rest, buf := buf ++ ds.map digitChar } := by
  induction ds generalizing buf with
  | nil =>
    cases rest with
    | nil => simp [acceptAll]
    | cons c cs =>
      have hc : c ∉ decimalDigits ++ ['_'] := by simpa [endsToken] using hrest
      simp only [List.map_nil, List.nil_append, acceptAll, if_neg hc, List.append_nil]
  | cons d ds ih =>
    have hd : d < 10 := hds d (List.mem_cons_self _ _)
    have hmem := digitChar_mem hd
    have hstep := ih (buf ++ [digitChar d]) (fun x hx => hds x (List.mem_cons_of_mem _ hx))
    simp only [List.map_cons, List.cons_append, acceptAll, if_pos hmem]
    simpa using hstep

/-- The accumulated value only grows along the digits. -/
theorem le_decimalFrom (n : Nat) (ds : List Nat) : n ≤ decimalFrom n ds := by
  induction ds generalizing n with
  | nil => simp [decimalFrom]
  | cons d ds ih =>
    have := ih (n * 10 + d)
    simp only [decimalFrom, List.foldl_cons] at this ⊢
    omega

/-- The digit loop of `ParseUint` computes the decimal value of a run of digits that
fits in a `uint64`. -/
theorem parseDigits_decimal (ds : List Nat) (n : Nat) (hds : ∀ d ∈ ds, d < 10)
    (hfit : decimalFrom n ds ≤ maxUint64) :
    parseDigits 10 true (ds.map digitChar) n false = some (decimalFrom n ds, false) := by
  induction ds generalizing n with
  | nil => simp [parseDigits, decimalFrom]
  | cons d ds ih =>
    have hd : d < 10 := hds d (List.mem_cons_self _ _)
    have hge := le_decimalFrom (n * 10 + d) ds
    have hfit2 : decimalFrom (n * 10 + d) ds ≤ maxUint64 := by
      simpa [decimalFrom] using hfit
    have hn : n * 10 + d ≤ maxUint64 := le_trans hge hfit2
    have hne : digitChar d ≠ '_' := by interval_cases d <;> decide
    have hto := digitChar_toNat hd
    have h0 : ('0' : Char).toNat = 48 := rfl
    have h9 : ('9' : Char).toNat = 57 := rfl
    have hcut : ¬ (n ≥ maxUint64 / 10 + 1) := by
      simp only [maxUint64] at hn ⊢
      omega
    have hov : ¬ (n * 10 + d > maxUint64) := by omega
    have hbase : ¬ (d ≥ 10) := by omega
    have hrange : 48 ≤ 48 + d ∧ 48 + d ≤ 57 := by omega
    simp only [List.map_cons, parseDigits, hne, false_and, if_false, hto, h0, h9, hrange,
      and_self, if_true, Nat.add_sub_cancel_left, hbase, hcut, hov]
    rw [ih (n * 10 + d) (fun x hx => hds x (List.mem_cons_of_mem _ hx)) hfit2]
    simp [decimalFrom]
/-- Without a leading `0` the scanner expects decimal digits and has none yet. -/
theorem scanBasePrefix_decimal (s : ss) (c : Char) (cs : List Char) (hs : s.input = c :: cs)
    (hz : c ≠ '0') : s.scanBasePrefix = (decimalDigits ++ ['_'], false, s) := by
  unfold ss.scanBasePrefix
  split
  · rename_i cs' heq
    rw [hs] at heq
    simp at heq
    exact absurd heq.1 hz
  · rfl

/-- The scan of an input that starts with neither space, sign nor `0`. -/
theorem scanInt_plain_head (c : Char) (cs : List Char)
    (hsp : isSpace c = false) (hsign : c ∉ ['+', '-']) (hz : c ≠ '0') :
    scanInt (c :: cs) =
      (match ({ input := c :: cs, buf := [] } : ss).scanNumber (decimalDigits ++ ['_']) false with
       | none => none
       | some tok => ParseInt tok) := by
  have hp := scanBasePrefix_decimal { input := c :: cs, buf := [] } c cs rfl hz
  have hskip : SkipSpace (c :: cs) = c :: cs := by simp [SkipSpace, hsp]
  have hacc : ({ input := c :: cs, buf := [] } : ss).accept ['+', '-'] =
      (false, { input := c :: cs, buf := [] }) := by
    simp only [ss.accept, if_neg hsign]
  unfold scanInt
  rw [hskip]
  simp only [hacc, hp]

/-- The scan of an input that starts with a decimal digit other than `0`: the
token is that digit and the digits after it. -/
theorem scanInt_digit_head (c : Char) (cs : List Char)
    (hsp : isSpace c = false) (hsign : c ∉ ['+', '-']) (hz : c ≠ '0')
    (hdig : c ∈ decimalDigits ++ ['_']) :
    scanInt (c :: cs) = ParseInt (acceptAll (decimalDigits ++ ['_']) cs [c]).buf := by
  rw [scanInt_plain_head c cs hsp hsign hz]
  simp only [ss.scanNumber, if_pos hdig]
  simp

/-- The scan fails on an input whose first character is neither space, sign, digit
nor underscore. -/
theorem scanInt_reject (c : Char) (cs : List Char)
    (hsp : isSpace c = false) (hsign : c ∉ ['+', '-'])
    (hdig : c ∉ decimalDigits ++ ['_']) :
    scanInt (c :: cs) = none := by
  have hz : c ≠ '0' := by
    rintro rfl
    exact hdig (by decide)
  rw [scanInt_plain_head c cs hsp hsign hz]
  simp only [ss.scanNumber, if_neg hdig]
  simp
/-- A literal that does not start with `0` is read in base 10. -/
theorem ParseUint_decimal (c : Char) (cs : List Char) (hz : c ≠ '0') :
    ParseUint (c :: cs) =
      (match parseDigits 10 true (c :: cs) 0 false with
       | none => none
       | some (n, underscores) =>
         if underscores ∧ underscoreOK (c :: cs) = false then none else some n) := by
  have hbase : (match c :: cs with
      | '0' :: c :: d :: t =>
        if lower c = 'b'.toNat then ((2 : Nat), d :: t)
        else if lower c = 'o'.toNat then (8, d :: t)
        else if lower c = 'x'.toNat then (16, d :: t)
        else (8, c :: d :: t)
      | '0' :: t => (8, t)
      | _ => (10, c :: cs)) = (10, c :: cs) := by
    split
    · rename_i heq; simp at heq; exact absurd heq.1 hz
    · rename_i heq; simp at heq; exact absurd heq.1 hz
    · rfl
  unfold ParseUint
  simp only [hbase]

/-- The conversion of a decimal token without leading zero that fits in an `int`. -/
theorem ParseInt_decimal (d : Nat) (ds : List Nat) (hd : 0 < d ∧ d < 10)
    (hds : ∀ x ∈ ds, x < 10) (hfit : decimalValue (d :: ds) ≤ 2 ^ 63 - 1) :
    ParseInt ((d :: ds).map digitChar) = some (decimalValue (d :: ds) : Int) := by
  have hall : ∀ x ∈ d :: ds, x < 10 := by
    intro x hx
    rcases List.mem_cons.1 hx with h | h
    · omega
    · exact hds x h
  have hfit64 : decimalFrom 0 (d :: ds) ≤ maxUint64 := by
    have : decimalFrom 0 (d :: ds) ≤ 2 ^ 63 - 1 := hfit
    simp only [maxUint64]
    omega
  have hparse := parseDigits_decimal (d :: ds) 0 hall hfit64
  have hz : digitChar d ≠ '0' := by
    obtain ⟨h0, h10⟩ := hd
    interval_cases d <;> decide
  have hplus : ¬ (digitChar d = '+' ∨ digitChar d = '-') := by
    obtain ⟨h0, h10⟩ := hd
    interval_cases d <;> decide
  have hneg : (digitChar d == '-') = false := by
    obtain ⟨h0, h10⟩ := hd
    interval_cases d <;> decide
  have hu : ParseUint (digitChar d :: ds.map digitChar) = some (decimalFrom 0 (d :: ds)) := by
    rw [ParseUint_decimal _ _ hz]
    rw [List.map_cons] at hparse
    rw [hparse]
    simp
  have hlt : ¬ (decimalFrom 0 (d :: ds) ≥ 2 ^ 63) := by
    have : decimalFrom 0 (d :: ds) ≤ 2 ^ 63 - 1 := hfit
    omega
  simp only [List.map_cons, ParseInt, hneg, if_neg hplus, hu]
  have hlt2 : decimalFrom 0 (d :: ds) < 9223372036854775808 := by omega
  simp [hlt2, decimalValue]

/-- A decimal literal without leading zero that fits in an `int` is scanned to its
value, whatever follows the token. -/
theorem Sscan_decimal (d : Nat) (ds : List Nat) (rest : List Char) (hd : 0 < d ∧ d < 10)
    (hds : ∀ x ∈ ds, x < 10) (hfit : decimalValue (d :: ds) ≤ 2 ^ 63 - 1)
    (hrest : endsToken rest = true) :
    Sscan ((d :: ds).map digitChar ++ rest) = some (decimalValue (d :: ds) : Int) := by
  have hsp : isSpace (digitChar d) = false := by
    obtain ⟨h0, h10⟩ := hd
    interval_cases d <;> decide
  have hsign : digitChar d ∉ ['+', '-'] := by
    obtain ⟨h0, h10⟩ := hd
    interval_cases d <;> decide
  have hz : digitChar d ≠ '0' := by
    obtain ⟨h0, h10⟩ := hd
    interval_cases d <;> decide
  have hacc := acceptAll_digits ds rest [digitChar d] hds hrest
  unfold Sscan
  rw [List.map_cons, List.cons_append, scanInt_digit_head _ _ hsp hsign hz (digitChar_mem hd.2), hacc]
  exact ParseInt_decimal d ds hd hds hfit
/-- A minus sign in front of a decimal token is taken into the token. -/
theorem scanInt_minus_head (c : Char) (cs : List Char) (hz : c ≠ '0')
    (hdig : c ∈ decimalDigits ++ ['_']) :
    scanInt ('-' :: c :: cs) = ParseInt (acceptAll (decimalDigits ++ ['_']) cs ['-', c]).buf := by
  have hp := scanBasePrefix_decimal { input := c :: cs, buf := ['-'] } c cs rfl hz
  have hskip : SkipSpace ('-' :: c :: cs) = '-' :: c :: cs := by
    have : isSpace '-' = false := by decide
    simp [SkipSpace, this]
  have hacc : ({ input := '-' :: c :: cs, buf := [] } : ss).accept ['+', '-'] =
      (true, { input := c :: cs, buf := ['-'] }) := by
    have : '-' ∈ ['+', '-'] := by decide
    simp only [ss.accept, if_pos this, List.nil_append]
  unfold scanInt
  rw [hskip]
  simp only [hacc, hp, ss.scanNumber, if_pos hdig]
  simp

/-- The conversion of a negative decimal token. -/
theorem ParseInt_minus_decimal (d : Nat) (ds : List Nat) (hd : 0 < d ∧ d < 10)
    (hds : ∀ x ∈ ds, x < 10) (hfit : decimalValue (d :: ds) ≤ 2 ^ 63) :
    ParseInt ('-' :: (d :: ds).map digitChar) = some (-(decimalValue (d :: ds) : Int)) := by
  have hall : ∀ x ∈ d :: ds, x < 10 := by
    intro x hx
    rcases List.mem_cons.1 hx with h | h
    · omega
    · exact hds x h
  have hfit64 : decimalFrom 0 (d :: ds) ≤ maxUint64 := by
    have : decimalFrom 0 (d :: ds) ≤ 2 ^ 63 := hfit
    simp only [maxUint64]
    omega
  have hparse := parseDigits_decimal (d :: ds) 0 hall hfit64
  have hz : digitChar d ≠ '0' := by
    obtain ⟨h0, h10⟩ := hd
    interval_cases d <;> decide
  have hu : ParseUint (digitChar d :: ds.map digitChar) = some (decimalFrom 0 (d :: ds)) := by
    rw [ParseUint_decimal _ _ hz]
    rw [List.map_cons] at hparse
    rw [hparse]
    simp
  have hle : decimalFrom 0 (d :: ds) ≤ 9223372036854775808 := hfit
  have hsgn : ('-' : Char) = '+' ∨ ('-' : Char) = '-' := Or.inr rfl
  have hneg : (('-' : Char) == '-') = true := by decide
  have hnot : ¬ (9223372036854775808 < decimalFrom 0 (d :: ds)) := not_lt.2 hle
  simp only [List.map_cons, ParseInt, hneg, if_pos hsgn]
  simp [hu, hnot, decimalValue]

/-- A negative decimal literal without leading zero that fits in an `int` is
scanned to its value, whatever follows the token. -/
theorem Sscan_minus_decimal (d : Nat) (ds : List Nat) (rest : List Char) (hd : 0 < d ∧ d < 10)
    (hds : ∀ x ∈ ds, x < 10) (hfit : decimalValue (d :: ds) ≤ 2 ^ 63)
    (hrest : endsToken rest = true) :
    Sscan ('-' :: ((d :: ds).map digitChar ++ rest)) = some (-(decimalValue (d :: ds) : Int)) := by
  have hz : digitChar d ≠ '0' := by
    obtain ⟨h0, h10⟩ := hd
    interval_cases d <;> decide
  have hacc := acceptAll_digits ds rest ['-', digitChar d] hds hrest
  unfold Sscan
  rw [List.map_cons, List.cons_append, scanInt_minus_head _ _ hz (digitChar_mem hd.2), hacc]
  exact ParseInt_minus_decimal d ds hd hds hfit

/-- The empty segment does not scan. -/
theorem Sscan_nil : Sscan [] = none := rfl


/-- With an id that does not scan, the three handlers answer 400 at once. -/
theorem handlers_of_scan_error (st : Store) (env : Env) (body : RequestBody)
    {id : List Char} (h : Sscan id = none) :
    getProduct st env id =
      { response := ⟨400, .error (.text "ID inválido")⟩, store := st, calls := [] } ∧
    putProduct st env id body =
      { response := ⟨400, .error (.text "ID inválido")⟩, store := st, calls := [] } ∧
    deleteProduct st env id =
      { response := ⟨400, .error (.text "ID inválido")⟩, store := st, calls := [] } := by
  simp [getProduct, putProduct, deleteProduct, h]

/-- With an id that scans to `n`, the repository is called with `n`. -/
theorem handlers_of_scan_ok (st : Store) (env : Env) (body : RequestBody)
    {id : List Char} {n : Int} (h : Sscan id = some n) :
    (getProduct st env id).calls = [.get n] ∧
    (deleteProduct st env id).calls = [.delete n] ∧
    (∀ p, ShouldBindJSON body = .ok p →
      (putProduct st env id body).calls = [.update n p]) ∧
    (getProduct st env id).response.status ≠ 400 ∧
    (deleteProduct st env id).response.status ≠ 400 := by
  refine ⟨?_, ?_, ?_, ?_, ?_⟩
  · rcases hg : GetProduct st env n with ⟨p, _ | e⟩ <;> simp [getProduct, h, hg]
  · rcases hg : DeleteProduct st env n with ⟨p, _ | e⟩ <;> simp [deleteProduct, h, hg]
  · intro p hp
    rcases hg : UpdateProduct st env n p with ⟨st', q, _ | e⟩ <;> simp [putProduct, h, hp, hg]
  · rcases hg : GetProduct st env n with ⟨p, _ | e⟩ <;> simp [getProduct, h, hg]
  · rcases hg : DeleteProduct st env n with ⟨p, _ | e⟩ <;> simp [deleteProduct, h, hg]

/-- C3, evaluated. Segments that are not wholly base-10 literals are accepted:
`GET /products/2abc` reads row 2 and is answered 200, the hexadecimal `0x1F` is
looked up as 31, and `DELETE /products/010`, read as octal, deletes with id 8
rather than 10. -/
theorem path_id_accepts_more_than_decimal :
    (getProduct sampleStore healthy ['2', 'a', 'b', 'c']).response.status = 200 ∧
    (getProduct sampleStore healthy ['2', 'a', 'b', 'c']).calls = [.get 2] ∧
    (getProduct sampleStore healthy ['0', 'x', '1', 'F']).response.status = 404 ∧
    (getProduct sampleStore healthy ['0', 'x', '1', 'F']).calls = [.get 31] ∧
    (deleteProduct sampleStore healthy ['0', '1', '0']).response.status = 204 ∧
    (deleteProduct sampleStore healthy ['0', '1', '0']).calls = [.delete 8] := by
  decide

/-! ## `GET /products/{id}` -/

/-- A table without the id has no row to select. -/
theorem sqlSelectById_eq_none {st : Store} {id : Int} :
    sqlSelectById st id = none ↔ st.hasId id = false := by
  simp [sqlSelectById, Store.hasId, List.find?_eq_none, List.any_eq_false]

/-- The selected row carries the id asked for and is a row of the table. -/
theorem sqlSelectById_eq_some {st : Store} {id : Int} {row : Product}
    (h : sqlSelectById st id = some row) : row.ID = id ∧ row ∈ st.rows := by
  unfold sqlSelectById at h
  have h1 := List.find?_some h
  have h2 := List.mem_of_find?_eq_some h
  exact ⟨by simpa using h1, h2⟩

/-- When the database executes the statement, `GET /products/{id}` with an id that
scans to `n` answers 200 with the row of id `n`, and 404 when no row has that id;
it never changes the store. -/
theorem getProduct_executed (st : Store) (env : Env) (id : List Char) (n : Int)
    (hid : Sscan id = some n) (hf : env.fault = none) :
    (∀ row, sqlSelectById st n = some row →
      (getProduct st env id).response = ⟨200, .product row⟩ ∧ row.ID = n ∧ row ∈ st.rows) ∧
    (st.hasId n = false →
      GetProduct st env n = (Product.zero, some .ErrNoRows) ∧
      (getProduct st env id).response = ⟨404, .error (.text "Produto não encontrado")⟩) ∧
    (getProduct st env id).store = st := by
  refine ⟨?_, ?_, ?_⟩
  · intro row hrow
    have hx := sqlSelectById_eq_some hrow
    refine ⟨?_, hx.1, hx.2⟩
    simp [getProduct, hid, GetProduct, hf, hrow]
  · intro hmiss
    have hnone := sqlSelectById_eq_none.2 hmiss
    simp [getProduct, hid, GetProduct, hf, hnone]
  · rcases hg : GetProduct st env n with ⟨p, _ | e⟩ <;> simp [getProduct, hid, hg]

/-- C4, evaluated. With row 1 present and the connection failing, `GetProduct`
returns the driver's error and `GET /products/1` answers 404 with `Produto não
encontrado`; a `Scan` that fails at the fourth column returns the partly filled
struct with its error and is answered 404 as well. The same connection failure is
answered 500 with the error's message by `DELETE /products/1`. -/
theorem get_store_fault_is_answered_404 :
    sampleStore.hasId 1 = true ∧
    GetProduct sampleStore broken 1 = (Product.zero, some (.fault "connection refused")) ∧
    (getProduct sampleStore broken ['1']).response =
      ⟨404, .error (.text "Produto não encontrado")⟩ ∧
    GetProduct sampleStore scanFailure 1 =
      (⟨1, "Widget", "", 0, 0, 0, 0⟩, some (.fault "cannot scan price")) ∧
    (getProduct sampleStore scanFailure ['1']).response =
      ⟨404, .error (.text "Produto não encontrado")⟩ ∧
    (deleteProduct sampleStore broken ['1']).response =
      ⟨500, .error (.store (.fault "connection refused"))⟩ := by
  decide

/-! ## `PUT /products/{id}` -/

/-- A table without the id is not changed by the `UPDATE`, which returns no row. -/
theorem sqlUpdate_of_missing (st : Store) (now : Time) (name description : String)
    (price : Rat) (quantity : Int) (id : Int) (h : st.hasId id = false) :
    sqlUpdate st now name description price quantity id = (st, []) := by
  have hne : ∀ r ∈ st.rows, r.ID ≠ id := by
    simpa [Store.hasId, List.any_eq_false] using h
  have hmap : st.rows.map (fun r =>
      if r.ID = id then
        { r with Name := name, Description := description, Price := price,
                 Quantity := quantity, UpdatedAt := now }
      else r) = st.rows := by
    conv_rhs => rw [← List.map_id st.rows]
    apply List.map_congr_left
    intro r hr
    simp [hne r hr]
  have hfilter : st.rows.filter (fun r => r.ID == id) = [] := by
    rw [List.filter_eq_nil_iff]
    intro r hr
    simpa using hne r hr
  unfold sqlUpdate
  rw [hmap, hfilter]
  rfl

/-- C5, counterexample. `PUT /products/1` with a valid body on an empty table: the
update fails with `ErrNoRows` and the handler answers 500, not 404. -/
theorem put_missing_id_is_answered_500 :
    ShouldBindJSON (.object (widgetBody 7 3)) = .ok ⟨0, "Widget", "", 7, 3, 0, 0⟩ ∧
    (UpdateProduct emptyStore healthy 1 ⟨0, "Widget", "", 7, 3, 0, 0⟩).2.2 = some .ErrNoRows ∧
    (putProduct emptyStore healthy ['1'] (.object (widgetBody 7 3))).response =
      ⟨500, .error (.store .ErrNoRows)⟩ := by
  have hb := ShouldBindJSON_widgetBody 7 7 3 ParseFloat_seven (by decide) (by decide)
    (by decide)
  have hs : Sscan ['1'] = some 1 := by decide
  refine ⟨hb, by decide, ?_⟩
  rw [putProduct_of_bind_ok emptyStore healthy hs hb]
  decide

/-- C5, amended. For an id that has no row and a body that binds to `product`, when
the statement is executed `UpdateProduct` fails with `ErrNoRows` and leaves both
the store and the product as they were, and `PUT /products/{id}` surfaces that
failure as 500 with the error's message. -/
theorem update_missing_id (st : Store) (env : Env) (id : Int) (product : Product)
    (seg : List Char) (body : RequestBody)
    (hfault : env.fault = none) (hmiss : st.hasId id = false)
    (hseg : Sscan seg = some id) (hbody : ShouldBindJSON body = .ok product) :
    UpdateProduct st env id product = (st, product, some .ErrNoRows) ∧
    (putProduct st env seg body).response = ⟨500, .error (.store .ErrNoRows)⟩ ∧
    (putProduct st env seg body).store = st ∧
    (putProduct st env seg body).calls = [.update id product] := by
  have hup : UpdateProduct st env id product = (st, product, some .ErrNoRows) := by
    simp [UpdateProduct, hfault, sqlUpdate_of_missing _ _ _ _ _ _ _ hmiss]
  refine ⟨hup, ?_, ?_, ?_⟩ <;> simp [putProduct, hseg, hbody, hup]

/-- C5, at `PUT /products/9` on the sample table, which has rows 1 and 2 only. -/
theorem update_missing_id_witness :
    UpdateProduct sampleStore healthy 9 ⟨0, "Widget", "", 7, 3, 0, 0⟩ =
      (sampleStore, ⟨0, "Widget", "", 7, 3, 0, 0⟩, some .ErrNoRows) ∧
    (putProduct sampleStore healthy ['9'] (.object (widgetBody 7 3))).response =
      ⟨500, .error (.store .ErrNoRows)⟩ :=
  have h := update_missing_id sampleStore healthy 9 ⟨0, "Widget", "", 7, 3, 0, 0⟩ ['9']
    (.object (widgetBody 7 3)) rfl (by decide) (by decide)
    (ShouldBindJSON_widgetBody 7 7 3 ParseFloat_seven (by decide) (by decide) (by decide))
  ⟨h.1, h.2.1⟩

/-- C6, evaluated. `PUT /products/1` with the body
`{"name":"Widget","price":7,"quantity":3}` on a table whose row 1 was created at
time 100 succeeds, and the response product has `id` 0 and the zero `created_at`,
while the stored row has `id` 1 and `created_at` 100; with
`"id":99,"created_at":7` in the body the response carries 99 and 7. -/
theorem put_response_is_the_body_not_the_row :
    (putProduct sampleStore healthy ['1'] (.object (widgetBody 7 3))).response =
      ⟨200, .product ⟨0, "Widget", "", 7, 3, 0, 200⟩⟩ ∧
    sqlSelectById (putProduct sampleStore healthy ['1'] (.object (widgetBody 7 3))).store 1 =
      some ⟨1, "Widget", "", 7, 3, 100, 200⟩ ∧
    (putProduct sampleStore healthy ['1']
      (.object { widgetBody 7 3 with id := .value 99, created_at := .value 7 })).response =
      ⟨200, .product ⟨99, "Widget", "", 7, 3, 7, 200⟩⟩ := by
  have hb := ShouldBindJSON_widgetBody 7 7 3 ParseFloat_seven (by decide) (by decide)
    (by decide)
  have hb2 : ShouldBindJSON
      (.object { widgetBody 7 3 with id := .value 99, created_at := .value 7 }) =
      .ok ⟨99, "Widget", "", 7, 3, 7, 0⟩ := by
    have hr : (minInt ≤ 99 ∧ (99 : Int) ≤ maxInt) ∧ minInt ≤ 3 ∧ (3 : Int) ≤ maxInt := by
      decide
    simp [ShouldBindJSON, decodeObject, widgetBody, decodeInt, decodeField, decodeFloat,
      ParseFloat_seven, validate, requiredFailures, hr]
  have hs : Sscan ['1'] = some 1 := by decide
  rw [putProduct_of_bind_ok sampleStore healthy hs hb,
    putProduct_of_bind_ok sampleStore healthy hs hb2]
  decide

/-! ## Create, then read -/

/-- C7. When `CreateProduct` succeeds on any input, a `GetProduct` of the assigned
id that the database executes succeeds and returns the very product
`CreateProduct` wrote back: its name, description, price and quantity are the
input's, its `created_at` equals its `updated_at`, and its id and timestamps are
the sequence value and the statement's time, whatever the input carried there. -/
theorem create_then_get (st st' : Store) (env env2 : Env) (input created : Product)
    (hcreate : CreateProduct st env input = (st', created, none))
    (hget : env2.fault = none) :
    GetProduct st' env2 created.ID = (created, none) ∧
    created.Name = input.Name ∧ created.Description = input.Description ∧
    created.Price = input.Price ∧ created.Quantity = input.Quantity ∧
    created.CreatedAt = created.UpdatedAt ∧
    created.ID = st.nextId ∧ created.CreatedAt = env.now ∧ created.UpdatedAt = env.now := by
  obtain ⟨_, hfree, hst, hcr⟩ := CreateProduct_ok hcreate
  subst hst hcr
  refine ⟨?_, rfl, rfl, rfl, rfl, rfl, rfl, rfl, rfl⟩
  have hnone : List.find? (fun r => r.ID == st.nextId) st.rows = none := by
    have := sqlSelectById_eq_none.2 hfree
    simpa [sqlSelectById] using this
  simp [GetProduct, hget, sqlSelectById, List.find?_append, hnone]

/-- C7, at the spec's scenario on the sample table, with an input that carries an
id and timestamps of its own. -/
theorem create_then_get_witness :
    GetProduct ⟨sampleStore.rows ++ [⟨3, "Widget", "", 5, 10, 200, 200⟩], 4⟩ healthy 3 =
      (⟨3, "Widget", "", 5, 10, 200, 200⟩, none) :=
  (create_then_get sampleStore ⟨sampleStore.rows ++ [⟨3, "Widget", "", 5, 10, 200, 200⟩], 4⟩
    healthy healthy ⟨77, "Widget", "", 5, 10, 8, 9⟩ ⟨3, "Widget", "", 5, 10, 200, 200⟩
    (by decide) rfl).1

/-! ## Delete -/

/-- Deleting an id the table does not hold changes nothing. -/
theorem sqlDelete_of_missing (st : Store) (id : Int) (h : st.hasId id = false) :
    sqlDelete st id = st := by
  have hne : ∀ r ∈ st.rows, r.ID ≠ id := by
    simpa [Store.hasId, List.any_eq_false] using h
  have hfilter : st.rows.filter (fun r => r.ID != id) = st.rows := by
    rw [List.filter_eq_self]
    intro r hr
    simpa using hne r hr
  unfold sqlDelete
  rw [hfilter]

/-- After the delete no row has the id. -/
theorem sqlDelete_hasId (st : Store) (id : Int) : (sqlDelete st id).hasId id = false := by
  simp [sqlDelete, Store.hasId, List.any_eq_false]

/-- The delete does not change what a select by another id finds. -/
theorem sqlSelectById_sqlDelete (st : Store) (id other : Int) (h : other ≠ id) :
    sqlSelectById (sqlDelete st id) other = sqlSelectById st other := by
  unfold sqlSelectById sqlDelete
  simp only [List.find?_filter]
  congr 1
  funext r
  by_cases hr : r.ID = other
  · have : r.ID ≠ id := fun hx => h (hr.symm.trans hx)
    simp [hr, h]
  · simp [hr]

/-- C8. When the database executes the statements: `DeleteProduct(id)` returns no
error and removes exactly the rows with that id; afterwards `GetProduct(id)` fails
with `ErrNoRows`, and `GetProduct` of any other id returns what it returned before;
on an id with no row `DeleteProduct` returns no error and leaves the store as it
was, so a second delete succeeds and changes nothing; and `DELETE /products/{id}`
answers 204 with an empty body whether or not a row had the id. -/
theorem delete_then_get (st : Store) (env env2 : Env) (id : Int) (seg : List Char)
    (hdel : env.fault = none) (hget : env2.fault = none) (hseg : Sscan seg = some id) :
    DeleteProduct st env id = (sqlDelete st id, none) ∧
    (sqlDelete st id).rows = st.rows.filter (fun r => r.ID != id) ∧
    (sqlDelete st id).nextId = st.nextId ∧
    GetProduct (sqlDelete st id) env2 id = (Product.zero, some .ErrNoRows) ∧
    (∀ other, other ≠ id →
      GetProduct (sqlDelete st id) env2 other = GetProduct st env2 other) ∧
    (st.hasId id = false → DeleteProduct st env id = (st, none)) ∧
    DeleteProduct (sqlDelete st id) env id = (sqlDelete st id, none) ∧
    (deleteProduct st env seg).response = ⟨204, .empty⟩ ∧
    (deleteProduct st env seg).store = sqlDelete st id ∧
    (deleteProduct (sqlDelete st id) env seg).response = ⟨204, .empty⟩ ∧
    (deleteProduct (sqlDelete st id) env seg).store = sqlDelete st id := by
  have hd : ∀ s : Store, DeleteProduct s env id = (sqlDelete s id, none) := by
    intro s
    simp [DeleteProduct, hdel]
  have hgone := sqlDelete_of_missing (sqlDelete st id) id (sqlDelete_hasId st id)
  refine ⟨hd st, rfl, rfl, ?_, ?_, ?_, ?_, ?_, ?_, ?_, ?_⟩
  · have hnone := sqlSelectById_eq_none.2 (sqlDelete_hasId st id)
    simp [GetProduct, hget, hnone]
  · intro other hne
    simp [GetProduct, hget, sqlSelectById_sqlDelete st id other hne]
  · intro hmiss
    rw [hd st, sqlDelete_of_missing st id hmiss]
  · rw [hd, hgone]
  · simp [deleteProduct, hseg, hd]
  · simp [deleteProduct, hseg, hd]
  · simp [deleteProduct, hseg, hd]
  · simp [deleteProduct, hseg, hd, hgone]

/-- C8, at `DELETE /products/1` on the sample table: row 2 stays, row 1 is gone,
and the answer is 204. -/
theorem delete_then_get_witness :
    DeleteProduct sampleStore healthy 1 = (⟨[sampleRow 2 "Gadget"], 3⟩, none) ∧
    GetProduct ⟨[sampleRow 2 "Gadget"], 3⟩ healthy 1 = (Product.zero, some .ErrNoRows) ∧
    (deleteProduct sampleStore healthy ['1']).response = ⟨204, .empty⟩ :=
  have h := delete_then_get sampleStore healthy healthy 1 ['1'] rfl rfl (by decide)
  ⟨h.1, h.2.2.2.1, h.2.2.2.2.2.2.2.1⟩

/-! ## List all -/

/-- Appending to a slice appends to its elements and never yields the nil slice. -/
theorem Slice.toList_append {α : Type} (s : Slice α) (a : α) :
    (s.append a).toList = s.toList ++ [a] ∧ s.append a ≠ Slice.nil := by
  cases s <;> simp [Slice.append, Slice.toList]

/-- An undisturbed row stream is collected whole, in order, without error. -/
theorem scanRows_undisturbed (rows : List Product) (k : Nat) (acc : Slice Product) :
    (scanRows none k rows acc).2 = none ∧
    (scanRows none k rows acc).1.toList = acc.toList ++ rows ∧
    (rows ≠ [] → (scanRows none k rows acc).1 ≠ Slice.nil) := by
  induction rows generalizing k acc with
  | nil => simp [scanRows]
  | cons row rest ih =>
    obtain ⟨h1, h2, h3⟩ := ih (k + 1) (acc.append row)
    have happ := Slice.toList_append acc row
    refine ⟨by simpa [scanRows] using h1, ?_, ?_⟩
    · simp only [scanRows]
      rw [h2, happ.1]
      simp
    · intro _
      simp only [scanRows]
      cases rest with
      | nil => simpa [scanRows] using happ.2
      | cons r rs => exact h3 (by simp)

/-- The rows `ORDER BY id` delivers are the table's rows, each once, in ascending
order of id; strictly ascending under the primary-key invariant. -/
theorem sqlSelectAll_sorted (st : Store) :
    (sqlSelectAll st).Perm st.rows ∧
    (sqlSelectAll st).Sorted (fun a b => a.ID ≤ b.ID) ∧
    (st.WF → (sqlSelectAll st).Sorted (fun a b => a.ID < b.ID)) := by
  haveI : IsTotal Product (fun a b => a.ID ≤ b.ID) := ⟨fun a b => le_total a.ID b.ID⟩
  haveI : IsTrans Product (fun a b => a.ID ≤ b.ID) := ⟨fun _ _ _ hab hbc => le_trans hab hbc⟩
  have hperm : (sqlSelectAll st).Perm st.rows := List.perm_insertionSort _ _
  have hsorted : (sqlSelectAll st).Sorted (fun a b => a.ID ≤ b.ID) :=
    List.sorted_insertionSort _ _
  refine ⟨hperm, hsorted, ?_⟩
  intro hwf
  have hnodup : ((sqlSelectAll st).map Product.ID).Nodup :=
    ((hperm.map Product.ID).nodup_iff).2 hwf
  have hne : (sqlSelectAll st).Pairwise (fun a b => a.ID ≠ b.ID) :=
    List.pairwise_map.1 hnodup
  exact (List.Pairwise.and hsorted hne).imp (fun h => lt_of_le_of_ne h.1 h.2)

/-- When nothing disturbs the query, `GetAllProducts` returns no error and exactly
the stored products, each once, in ascending order of id (strictly ascending under
the primary-key invariant), in whatever order the rows lie in the table; on a
non-empty table `GET /products` answers 200 with that array. -/
theorem GetAllProducts_undisturbed (st : Store) :
    (GetAllProducts st none).2 = none ∧
    (GetAllProducts st none).1.toList = sqlSelectAll st ∧
    (GetAllProducts st none).1.toList.Perm st.rows ∧
    (GetAllProducts st none).1.toList.Sorted (fun a b => a.ID ≤ b.ID) ∧
    (st.WF → (GetAllProducts st none).1.toList.Sorted (fun a b => a.ID < b.ID)) ∧
    (st.rows ≠ [] → (getProducts st none).response = ⟨200, .array (sqlSelectAll st)⟩) := by
  obtain ⟨h1, h2, h3⟩ := scanRows_undisturbed (sqlSelectAll st) 0 Slice.nil
  obtain ⟨hperm, hsorted, hstrict⟩ := sqlSelectAll_sorted st
  have hga : GetAllProducts st none = scanRows none 0 (sqlSelectAll st) Slice.nil := rfl
  have hne2 : st.rows ≠ [] → sqlSelectAll st ≠ [] := by
    intro hne hnil
    rw [hnil] at hperm
    exact hne (List.Perm.eq_nil hperm.symm)
  rw [hga]
  rcases hs : scanRows none 0 (sqlSelectAll st) Slice.nil with ⟨sl, e⟩
  rw [hs] at h1 h2 h3
  simp only [Slice.toList, List.nil_append] at h1 h2 h3
  subst h1
  replace h2 : sl.toList = sqlSelectAll st := h2
  refine ⟨rfl, h2, ?_, ?_, ?_, ?_⟩
  · show sl.toList.Perm st.rows
    rw [h2]; exact hperm
  · show sl.toList.Sorted _
    rw [h2]; exact hsorted
  · intro hwf
    show sl.toList.Sorted _
    rw [h2]; exact hstrict hwf
  · intro hne
    have hnn := h3 (hne2 hne)
    cases sl with
    | nil => exact absurd rfl hnn
    | items ps =>
      have hps : ps = sqlSelectAll st := by simpa [Slice.toList] using h2
      simp [getProducts, hga, hs, renderSlice, hps]

/-- C9, evaluated. On an empty table `GetAllProducts` returns the nil slice and no
error, and `GET /products` answers 200 with the JSON value `null`, which is not
the empty array. -/
theorem get_products_on_empty_table_is_null :
    GetAllProducts emptyStore none = (Slice.nil, none) ∧
    (getProducts emptyStore none).response = ⟨200, .null⟩ ∧
    (getProducts emptyStore none).response ≠ ⟨200, .array []⟩ := by
  decide

/-! ## Error propagation -/

/-- A fault the driver reports for the statement, or for `db.Query`, or for a
`rows.Scan`, is returned by the repository method. -/
theorem repository_returns_faults (st : Store) (env : Env) (msg : String)
    (id : Int) (product : Product) (h : env.fault = some msg) :
    (CreateProduct st env product).2.2 = some (.fault msg) ∧
    (GetProduct st env id).2 = some (.fault msg) ∧
    (UpdateProduct st env id product).2.2 = some (.fault msg) ∧
    (DeleteProduct st env id).2 = some (.fault msg) ∧
    (GetAllProducts st (some (.query msg))).2 = some (.fault msg) := by
  cases hsel : sqlSelectById st id <;>
    simp [CreateProduct, GetProduct, UpdateProduct, DeleteProduct, GetAllProducts, h, hsel]

/-- C10, evaluated. The row stream of `GetAllProducts` over the sample table breaks
after the first row: the method returns that one row and a nil error, and
`GET /products` answers 200 with the partial array. -/
theorem get_all_swallows_stream_error :
    sqlSelectAll sampleStore = [sampleRow 1 "Widget", sampleRow 2 "Gadget"] ∧
    GetAllProducts sampleStore (some (.next 1 "broken pipe")) =
      (.items [sampleRow 1 "Widget"], none) ∧
    (getProducts sampleStore (some (.next 1 "broken pipe"))).response =
      ⟨200, .array [sampleRow 1 "Widget"]⟩ := by
  decide

/-! ## The primary-key invariant -/

/-- Every repository method keeps the ids of the table distinct. -/
theorem WF_preserved (st : Store) (env : Env) (id : Int) (product : Product)
    (h : st.WF) :
    (CreateProduct st env product).1.WF ∧ (UpdateProduct st env id product).1.WF ∧
    (DeleteProduct st env id).1.WF := by
  unfold Store.WF at h ⊢
  refine ⟨?_, ?_, ?_⟩
  · unfold CreateProduct
    cases hf : env.fault with
    | some msg => simpa using h
    | none =>
      cases hh : st.hasId st.nextId with
      | true => simpa [sqlInsert, hh] using h
      | false =>
        have hne : ∀ r ∈ st.rows, r.ID ≠ st.nextId := by
          simpa [Store.hasId, List.any_eq_false] using hh
        simp only [sqlInsert, hh, Bool.false_eq_true, if_false, List.map_append, List.map_cons,
          List.map_nil]
        rw [List.nodup_append]
        refine ⟨h, List.nodup_singleton _, ?_⟩
        intro a ha hb
        rw [List.mem_singleton] at hb
        obtain ⟨r, hr, rfl⟩ := List.mem_map.1 ha
        exact hne r hr hb
  · unfold UpdateProduct
    cases hf : env.fault with
    | some msg => simpa using h
    | none =>
      have hids : (sqlUpdate st env.now product.Name product.Description product.Price
          product.Quantity id).1.rows.map Product.ID = st.rows.map Product.ID := by
        simp only [sqlUpdate, List.map_map]
        apply List.map_congr_left
        intro r _
        by_cases hr : r.ID = id <;> simp [hr]
      rcases hu : sqlUpdate st env.now product.Name product.Description product.Price
          product.Quantity id with ⟨st', _ | ⟨t, ts⟩⟩ <;>
        · rw [hu] at hids
          simp only at hids ⊢
          rw [hids]
          exact h
  · unfold DeleteProduct
    cases hf : env.fault with
    | some msg => simpa using h
    | none =>
      simp only [sqlDelete]
      exact h.sublist ((List.filter_sublist _).map _)

end StockApi
